import Mathlib

/-!
Verification of the struccy field access-control and type-coercion engine.

The definitions below are a shallow embedding of `struccy.go` (package
version 1.5.4).  Go strings are Lean `String`s, Go `[]string` are
`List String`.  The Go standard-library string helpers used by the source
(`strings.Split(s, ",")`, `strings.HasPrefix(s, "!")`,
`strings.TrimPrefix(s, "!")`) are embedded as character-list operations.
-/

namespace Struccy

/-- Splits a character list on the comma character, keeping empty segments,
exactly like Go's `strings.Split(s, ",")` does on the underlying bytes
(all characters involved are ASCII, so bytes and runes coincide). -/
def splitChars : List Char → List (List Char)
  | [] => [[]]
  | c :: cs =>
    if c = ',' then [] :: splitChars cs
    else
      match splitChars cs with
      | [] => [[c]]
      | h :: t => (c :: h) :: t

/-- Embeds `strings.Split(tagValue, ",")` (struccy.go line 658). -/
def goSplit (s : String) : List String :=
  (splitChars s.data).map String.mk

/-- Embeds `strings.HasPrefix(taggedRole, "!")` (struccy.go line 672). -/
def hasPrefixBang (s : String) : Bool :=
  match s.data with
  | '!' :: _ => true
  | _ => false

/-- Embeds `strings.TrimPrefix(taggedRole, "!")` (struccy.go line 676):
drops one leading `!` when present, otherwise returns the string unchanged. -/
def trimPrefixBang (s : String) : String :=
  match s.data with
  | '!' :: cs => String.mk cs
  | _ => s

/-- Outcome of scanning the tagged roles for one caller role: either the Go
code executed `return false` (a hard veto on a negated role), or the inner
loop finished with an updated `finallyAllowed` flag. -/
inductive ScanOutcome where
  | veto
  | flag (b : Bool)
deriving DecidableEq, Repr

/-- The inner loop of `IsFieldAccessAllowed` (struccy.go lines 664-680) for a
single caller role: walks the tagged roles, updating `finallyAllowed` (`acc`),
and vetoes as soon as the role matches a negated token. -/
def scanRole (role : String) : List String → Bool → ScanOutcome
  | [], acc => .flag acc
  | t :: ts, acc =>
    if role = t then scanRole role ts true
    else if hasPrefixBang t then
      if role = trimPrefixBang t then .veto
      else scanRole role ts true
    else scanRole role ts acc

/-- The outer loop of `IsFieldAccessAllowed` (struccy.go lines 663-681):
iterates the caller roles, threading `finallyAllowed`, returning `false`
immediately on a veto. -/
def scanRoles : List String → List String → Bool → Bool
  | [], _, acc => acc
  | r :: rs, tags, acc =>
    match scanRole r tags acc with
    | .veto => false
    | .flag acc' => scanRoles rs tags acc'

/-- Embeds `IsFieldAccessAllowed(roles, tagValue)` (struccy.go lines 651-685). -/
def IsFieldAccessAllowed (roles : List String) (tagValue : String) : Bool :=
  if tagValue = "*" then true
  else scanRoles roles (goSplit tagValue) false

/-- Go types of the modelled fragment.  `tfunc`/`tiface` carry an identifier
so that distinct function/interface types stay distinct. -/
inductive Ty where
  | tstring
  | tint
  | tint8
  | tfloat64
  | tbool
  | tptr (t : Ty)
  | tslice (t : Ty)
  | tchan (t : Ty)
  | tfunc (id : Nat)
  | tiface (id : Nat)
deriving DecidableEq, Repr

/-- Go `reflect.Kind` for the modelled fragment. -/
inductive Kind where
  | kstring
  | kint
  | kint8
  | kfloat64
  | kbool
  | kptr
  | kslice
  | kchan
  | kfunc
  | kiface
deriving DecidableEq, Repr

/-- The `reflect.Type.Kind()` of a type. -/
def Ty.kind : Ty → Kind
  | .tstring => .kstring
  | .tint => .kint
  | .tint8 => .kint8
  | .tfloat64 => .kfloat64
  | .tbool => .kbool
  | .tptr _ => .kptr
  | .tslice _ => .kslice
  | .tchan _ => .kchan
  | .tfunc _ => .kfunc
  | .tiface _ => .kiface

/-- Embeds `reflect.Type.Elem()` for pointer, slice and channel types; Go panics on
other kinds, the default branch is never consulted by the embedded code. -/
def Ty.elemD : Ty → Ty
  | .tptr t => t
  | .tslice t => t
  | .tchan t => t
  | t => t

/-- The kinds `reflect.Int .. reflect.Int64` present in the modelled
fragment (the source also lists the unsigned kinds; no unsigned type is in
the fragment). -/
def isIntKind (k : Kind) : Bool :=
  k = Kind.kint ∨ k = Kind.kint8

/-- The kinds `reflect.Float32 | reflect.Float64` present in the fragment. -/
def isFloatKind (k : Kind) : Bool :=
  k = Kind.kfloat64

/-- Go runtime values of the modelled fragment.  A pointer is either nil
(`vptrNil`) or points at a value (`vptrSome`).  Slice, channel, function and
interface values are nil or an opaque handle: none of the embedded
operations ever inspects their contents — they only copy such values whole
and compare their types — so the handle stands for the slice header /
channel / function / interface word. -/
inductive Val where
  | vstr (s : String)
  | vint (n : Int)
  | vint8 (n : Int)
  | vfloat64 (x : Rat)
  | vbool (b : Bool)
  | vptrNil (t : Ty)
  | vptrSome (t : Ty) (w : Val)
  | vslice (t : Ty) (h : Option Nat)
  | vchan (t : Ty) (h : Option Nat)
  | vfunc (id : Nat) (h : Option Nat)
  | viface (id : Nat) (h : Option Nat)
deriving DecidableEq, Repr

/-- Embeds `reflect.TypeOf` / `Value.Type()` of a runtime value. -/
def Val.ty : Val → Ty
  | .vstr _ => .tstring
  | .vint _ => .tint
  | .vint8 _ => .tint8
  | .vfloat64 _ => .tfloat64
  | .vbool _ => .tbool
  | .vptrNil t => .tptr t
  | .vptrSome t _ => .tptr t
  | .vslice t _ => .tslice t
  | .vchan t _ => .tchan t
  | .vfunc i _ => .tfunc i
  | .viface i _ => .tiface i

/-- Embeds `reflect.Value.Kind()`. -/
def Val.kind (v : Val) : Kind := v.ty.kind

/-- Embeds `reflect.Value.IsNil()` on the nilable kinds (false elsewhere; Go panics
there, and the embedded code only calls it after a kind check). -/
def Val.isNil : Val → Bool
  | .vptrNil _ => true
  | .vslice _ none => true
  | .vchan _ none => true
  | .vfunc _ none => true
  | .viface _ none => true
  | _ => false

/-- Embeds `reflect.Value.IsZero()`: zero numeric/string/bool values, nil for the
nilable kinds. -/
def Val.isZero : Val → Bool
  | .vstr s => s = ""
  | .vint n => n = 0
  | .vint8 n => n = 0
  | .vfloat64 x => x = 0
  | .vbool b => b = false
  | v => v.isNil

/-- Embeds `reflect.Value.Elem()` on a non-nil pointer (the embedded code only
dereferences after a nil check; the fallback is never consulted). -/
def Val.derefD : Val → Val
  | .vptrSome _ w => w
  | v => v

/-- Embeds `reflect.Zero(t)`: the zero value of a type. -/
def zeroVal : Ty → Val
  | .tstring => .vstr ""
  | .tint => .vint 0
  | .tint8 => .vint8 0
  | .tfloat64 => .vfloat64 0
  | .tbool => .vbool false
  | .tptr t => .vptrNil t
  | .tslice t => .vslice t none
  | .tchan t => .vchan t none
  | .tfunc i => .vfunc i none
  | .tiface i => .viface i none

/-- Go assignability restricted to the modelled fragment: with no defined
(named) types and no non-empty interfaces in the fragment, a value type is
assignable to a target type exactly when the two are identical. -/
def assignableTo (src dst : Ty) : Bool := src = dst

/-- Go convertibility restricted to the modelled fragment: identical types,
plus the numeric kinds (`int`, `int8`, `float64`), which Go converts among
each other in both directions. -/
def convertibleTo (src dst : Ty) : Bool :=
  src = dst ||
    ((isIntKind src.kind || isFloatKind src.kind) &&
     (isIntKind dst.kind || isFloatKind dst.kind))

/-- Two's-complement wrap-around of an integer into the `int8` range,
matching Go's behaviour for integer conversions to `int8`. -/
def int8wrap (n : Int) : Int := (n + 128) % 256 - 128

/-- Go's conversion of a float to an integer kind truncates toward zero.
On rationals this is `num / den` with Lean's truncating integer division. -/
def ratTruncToInt (x : Rat) : Int := x.num / (x.den : Int)

/-- Embeds `reflect.Value.Convert(target)` on the modelled fragment, for the
convertible pairs: identity on the same type, numeric conversions between
the numeric kinds (float to int truncates toward zero, as in Go; conversions
to `int8` wrap as in Go). -/
def goConvert (v : Val) (target : Ty) : Val :=
  match v, target with
  | .vint n, .tint => .vint n
  | .vint n, .tint8 => .vint8 (int8wrap n)
  | .vint n, .tfloat64 => .vfloat64 (n : Rat)
  | .vint8 n, .tint => .vint n
  | .vint8 n, .tint8 => .vint8 n
  | .vint8 n, .tfloat64 => .vfloat64 (n : Rat)
  | .vfloat64 x, .tint => .vint (ratTruncToInt x)
  | .vfloat64 x, .tint8 => .vint8 (int8wrap (ratTruncToInt x))
  | .vfloat64 x, .tfloat64 => .vfloat64 x
  | v, _ => v

/-- A struct field as the Field Descriptor Resolver sees it: name, declared
type, and the two access-policy tag strings (`readxs`, `writexs`; an absent
tag reads as the empty string, exactly what `Tag.Get` returns). -/
structure StructField where
  name : String
  ty : Ty
  readxs : String
  writexs : String
deriving DecidableEq, Repr

/-- A struct type: its ordered field list. -/
structure StructTy where
  fields : List StructField
deriving DecidableEq, Repr

/-- A struct value: its type and the ordered field values. -/
structure StructVal where
  sty : StructTy
  vals : List Val
deriving DecidableEq, Repr

/-- Embeds `FieldByName` on a struct value: the first field with the given name,
with its current value (Go struct field names are unique, so first-match
agrees with Go's resolution; `FilterStructTo`'s name-keyed map lookup
coincides with this on structs with unique field names). -/
def lookupField (s : StructVal) (name : String) : Option (StructField × Val) :=
  (s.sty.fields.zip s.vals).find? (fun fv => fv.1.name = name)

/-- The package-level error sentinels of struccy.go (lines 18-44) that the
embedded operations can return, plus `goPanic` marking the places where the
Go code would panic inside `reflect` (a set with a mismatched type, an
out-of-range field index). -/
inductive SErr where
  | targetStructMustBePointer
  | updateStructMustBePointer
  | sourceStructMustBePointer
  | filteredStructMustBePointer
  | fieldNotFound (name : String)
  | fieldTypeMismatch (name : String)
  | unsupportedFieldType (name : String)
  | invalidStructPointer
  | invalidFieldName
  | unauthorizedFieldSet
  | invalidFieldValue
  | invalidFieldType
  | invalidPtrType
  | goPanic
deriving DecidableEq, Repr

/-- Lines 1078-1086 of struccy.go (`canConvertInt`): the value has an
integer kind (the unsigned kinds have no representative in the fragment). -/
def canConvertInt (v : Val) : Bool := isIntKind v.kind

/-- Lines 1089-1096 of struccy.go (`canConvertFloat`). -/
def canConvertFloat (v : Val) : Bool := isFloatKind v.kind

/-- Lines 1055-1066 of struccy.go (`tryConvertInt`): succeeds exactly for
integer-kind targets; the conversion itself is Go's `Convert` through
`int64`, which agrees with `goConvert` on numeric values (the function is
only ever reached with numeric values). -/
def tryConvertInt (v : Val) (target : Ty) : Option Val :=
  if isIntKind target.kind then some (goConvert v target) else none

/-- Lines 1069-1075 of struccy.go (`tryConvertFloat`). -/
def tryConvertFloat (v : Val) (target : Ty) : Option Val :=
  if isFloatKind target.kind then some (goConvert v target) else none

/-- Lines 871-956 of struccy.go: `value` is a pointer whose pointee type is
assignable to the field type; the code dispatches on the field kind and
stores the dereferenced value with the matching `Set*` call (`SetInt` and
`SetFloat` wrap/widen exactly as `goConvert` does).  For a pointer-kinded
field the code first stores a freshly allocated pointer and then calls
`field.Elem().Set(val.Elem())` whose operand is itself pointer-typed, which
panics inside reflect.  For a nil pointer `val.Elem()` is the invalid
`reflect.Value`: it matches no kind dispatch, falling through to the
`return ErrInvalidFieldType` at line 955 (the pointer-field branch panics on
`Set` of the invalid value).  The map- and struct-kinded arms and the
`X`-to-`*X` arms of the dispatch are outside the fragment or unreachable
(the pointer-field arm precedes them). -/
def ptrUnwrapAssign (fieldType : Ty) (fieldVal : Val) (value : Val) : Val × Option SErr :=
  match value with
  | .vptrSome _ w =>
    if fieldType.kind = Kind.kptr then
      (.vptrSome fieldType.elemD (zeroVal fieldType.elemD), some .goPanic)
    else if fieldType.kind = Kind.kstring ∧ w.kind = Kind.kstring then (w, none)
    else if isIntKind fieldType.kind ∧ isIntKind w.kind then
      (goConvert w fieldType, none)
    else if isFloatKind fieldType.kind ∧ isFloatKind w.kind then
      (goConvert w fieldType, none)
    else if isFloatKind fieldType.kind ∧ isIntKind w.kind then
      (goConvert w fieldType, none)
    else if fieldType.kind = Kind.kbool ∧ w.kind = Kind.kbool then (w, none)
    else if fieldType.kind = Kind.kslice ∧ w.kind = Kind.kslice ∧
        assignableTo w.ty.elemD fieldType.elemD then (w, none)
    else (fieldVal, some .invalidFieldType)
  | _ =>
    if fieldType.kind = Kind.kptr then
      (.vptrSome fieldType.elemD (zeroVal fieldType.elemD), some .goPanic)
    else (fieldVal, some .invalidFieldType)

/-- Lines 957-989 of struccy.go: the value is not Go-convertible to the
field type.  Integer/float-kinded targets reject non-numeric values with
`ErrInvalidFieldType` (their convert arms are unreachable: a numeric value
would have been convertible); a pointer-kinded field whose pointee type
matches the value yields `ErrInvalidPtrType`; the pointer-value arm at line
986 is unreachable (such values were handled at line 871); every remaining
combination falls through to the `return nil` at line 1030 without touching
the field. -/
def notConvertibleAssign (fieldType : Ty) (fieldVal : Val) (value : Val) :
    Val × Option SErr :=
  if fieldType.kind = Kind.kptr ∧ assignableTo value.ty fieldType.elemD then
    (fieldVal, some .invalidPtrType)
  else if isIntKind fieldType.kind then
    if ¬ (canConvertInt value = true) then (fieldVal, some .invalidFieldType)
    else
      match tryConvertInt value fieldType with
      | some v' => (v', none)
      | none => (fieldVal, none)
  else if isFloatKind fieldType.kind then
    if ¬ (canConvertFloat value = true) then (fieldVal, some .invalidFieldType)
    else
      match tryConvertFloat value fieldType with
      | some v' => (v', none)
      | none => (fieldVal, none)
  else if value.kind = Kind.kptr ∧ assignableTo value.ty.elemD fieldType then
    (fieldVal, some .invalidFieldType)
  else (fieldVal, none)

/-- Lines 990-1009 of struccy.go: the value is Go-convertible to the field
type.  Each arm performs the corresponding `Set`, and then the block
unconditionally executes `return ErrInvalidFieldType` (line 1008) — the
field is mutated *and* an error is returned.  The final arm
(`ErrInvalidFieldValue`, line 1006) is unreachable here because the value is
convertible. -/
def convertAssign (fieldType : Ty) (fieldVal : Val) (value : Val) :
    Val × Option SErr :=
  if fieldType.kind = Kind.kptr ∧ assignableTo value.ty fieldType.elemD then
    (.vptrSome fieldType.elemD value, some .invalidFieldType)
  else if value.kind = Kind.kptr ∧ assignableTo value.ty.elemD fieldType then
    (value.derefD, some .invalidFieldType)
  else if convertibleTo value.ty fieldType then
    (goConvert value fieldType, some .invalidFieldType)
  else
    match tryConvertInt value fieldType with
    | some v' => (v', some .invalidFieldType)
    | none =>
      match tryConvertFloat value fieldType with
      | some v' => (v', some .invalidFieldType)
      | none => (fieldVal, some .invalidFieldValue)

/-- Embeds `setReflectField(field, value)` (struccy.go lines 858-1031).
Takes the field's declared type and current value together with the incoming
value; returns the field's value after the call and the returned error (the
Go code can both set the field and return an error). -/
def setReflectField (fieldType : Ty) (fieldVal : Val) (value : Val) :
    Val × Option SErr :=
  if assignableTo value.ty fieldType then (value, none)
  else if value.kind = Kind.kptr ∧ assignableTo value.ty.elemD fieldType then
    ptrUnwrapAssign fieldType fieldVal value
  else if ¬ (convertibleTo value.ty fieldType = true) then
    notConvertibleAssign fieldType fieldVal value
  else
    convertAssign fieldType fieldVal value

/-- Embeds `IsAllowedToSetField(entity, fieldName, roles)` (struccy.go lines
1042-1052): looks the field up by name on the struct type and evaluates its
`writexs` tag. -/
def IsAllowedToSetField (entity : StructVal) (fieldName : String)
    (roles : List String) : Bool :=
  match entity.sty.fields.find? (fun f => f.name = fieldName) with
  | none => false
  | some f => IsFieldAccessAllowed roles f.writexs

/-- Applies `setReflectField` to the first field with the given name,
leaving the other field values unchanged (the `rv.FieldByName` write of
`SetField`).  The fallback arm is unreachable: `SetField` only calls this
after the name lookup succeeded. -/
def setInVals (fields : List StructField) (vals : List Val) (fieldName : String)
    (value : Val) : List Val × Option SErr :=
  match fields, vals with
  | f :: fs, v :: vs =>
    if f.name = fieldName then
      let r := setReflectField f.ty v value
      (r.1 :: vs, r.2)
    else
      let r := setInVals fs vs fieldName value
      (v :: r.1, r.2)
  | _, _ => (vals, some .invalidFieldName)

/-- Embeds `SetField(entity, fieldName, value, skipZeroVals, roles)`
(struccy.go lines 835-856).  The entity is threaded explicitly: the result
is the struct the entity pointer refers to after the call, paired with the
returned error.  The `skipZeroVals` parameter is declared but never read by
the Go function — the zero/nil skip at line 850 is unconditional. -/
def SetField (entity : StructVal) (fieldName : String) (value : Val)
    (skipZeroVals : Bool) (roles : List String) : StructVal × Option SErr :=
  match entity.sty.fields.find? (fun f => f.name = fieldName) with
  | none => (entity, some .invalidFieldName)
  | some _ =>
    if ¬ (IsAllowedToSetField entity fieldName roles = true) then
      (entity, some .unauthorizedFieldSet)
    else if (value.kind = Kind.kptr ∧ value.isNil = true) ∨ value.isZero = true then
      (entity, none)
    else
      let r := setInVals entity.sty.fields entity.vals fieldName value
      (⟨entity.sty, r.1⟩, r.2)

/-- The body of `FilterStructTo`'s field loop for one destination field
(struccy.go lines 282-341): given the source struct, the caller roles, the
`zeroDisallowed` flag, the destination field descriptor and its current
value, returns the destination field's value after the iteration, or the
error that aborts the whole call.  Note that the `readxs` access check
(lines 323-329) sits only in the branch where source and destination field
types are identical; the pointer/slice reconciliation branches (lines
295-318) copy without consulting the read policy. -/
def filterOne (source : StructVal) (xsList : List String) (zeroDisallowed : Bool)
    (f : StructField) (dstVal : Val) : Except SErr Val :=
  match lookupField source f.name with
  | none => .ok (if zeroDisallowed then zeroVal f.ty else dstVal)
  | some (sf, sv) =>
    if sf.ty ≠ f.ty then
      if sf.ty.kind = Kind.kptr ∧ f.ty.kind ≠ Kind.kptr then
        if sf.ty.elemD = f.ty then
          if ¬ (sv.isNil = true) then .ok sv.derefD
          else if ¬ zeroDisallowed then .ok (zeroVal f.ty)
          else .ok dstVal
        else if sf.ty.elemD.kind = Kind.kslice ∧ f.ty.kind = Kind.kslice ∧
            sf.ty.elemD.elemD = f.ty.elemD then
          if ¬ (sv.isNil = true) then .ok sv.derefD
          else if ¬ zeroDisallowed then .ok (zeroVal f.ty)
          else .ok dstVal
        else .error (.fieldTypeMismatch f.name)
      else if sf.ty.kind ≠ Kind.kptr ∧ f.ty.kind = Kind.kptr ∧
          sf.ty = f.ty.elemD then
        .ok (.vptrSome sf.ty sv)
      else .error (.fieldTypeMismatch f.name)
    else
      if ¬ (IsFieldAccessAllowed xsList f.readxs = true) then
        .ok (if zeroDisallowed then zeroVal f.ty else dstVal)
      else
        if sf.ty.kind = Kind.kptr then
          if ¬ (sv.isNil = true) then .ok sv
          else if ¬ zeroDisallowed then .ok (zeroVal f.ty)
          else .ok dstVal
        else .ok sv

/-- The field loop of `FilterStructTo`: processes the destination fields in
order, mutating each in place; on the first error the current and remaining
destination fields keep their values (the Go function returns
immediately, leaving `*filteredStruct` partially written). -/
def filterFields (source : StructVal) (xsList : List String)
    (zeroDisallowed : Bool) :
    List (StructField × Val) → List Val × Option SErr
  | [] => ([], none)
  | (f, dv) :: rest =>
    match filterOne source xsList zeroDisallowed f dv with
    | .error e => (dv :: rest.map Prod.snd, some e)
    | .ok v =>
      let r := filterFields source xsList zeroDisallowed rest
      (v :: r.1, r.2)

/-- Embeds `FilterStructTo(sourceStruct, filteredStruct, xsList,
zeroDisallowed)` (struccy.go lines 261-344).  The destination struct is
threaded explicitly: the result is the struct `filteredStruct` points to
after the call, paired with the returned error.  The pointer-argument
checks (lines 265-271) cannot fire at value level. -/
def FilterStructTo (sourceStruct filteredStruct : StructVal)
    (xsList : List String) (zeroDisallowed : Bool) : StructVal × Option SErr :=
  let r := filterFields sourceStruct xsList zeroDisallowed
    (filteredStruct.sty.fields.zip filteredStruct.vals)
  (⟨filteredStruct.sty, r.1⟩, r.2)

/-- Replace the value of the first field with the given name (the write half
of `FieldByName(..).Set(..)` on a struct value). -/
def setValsByName (fields : List StructField) (vals : List Val) (name : String)
    (v : Val) : List Val :=
  match fields, vals with
  | f :: fs, w :: ws =>
    if f.name = name then v :: ws else w :: setValsByName fs ws name v
  | _, _ => vals

/-- Embeds `mergedStruct.FieldByName(name).Set(v)` at value level. -/
def StructVal.setByName (s : StructVal) (name : String) (v : Val) : StructVal :=
  ⟨s.sty, setValsByName s.sty.fields s.vals name v⟩

/-- One iteration of the update-field loop of `MergeStructUpdateTo`
(struccy.go lines 87-126) acting on the merged struct: `f`/`uv` are the
update struct's field descriptor and value, looked up by name in the merged
struct.  Kind tests use the declared types (a `reflect` struct field value
carries its declared type); `IsNil` inspects the runtime value.  An
unguarded `reflect` `Set` with a mismatched type panics (`goPanic`).  The
chan/func/interface rejection (lines 122-125) runs *after* the assignment,
but a `continue` on a write-denied field skips it. -/
def mergeOne (xsList : List String) (f : StructField) (uv : Val)
    (merged : StructVal) : Except SErr StructVal :=
  match lookupField merged f.name with
  | none => .error (.fieldNotFound f.name)
  | some (tf, _) =>
    if ¬ (IsFieldAccessAllowed xsList f.writexs = true) then .ok merged
    else
      let setRes : Except SErr StructVal :=
        if f.ty.kind = Kind.kptr then
          if ¬ (uv.isNil = true) then
            if tf.ty.kind = Kind.kptr then
              if assignableTo f.ty tf.ty then .ok (merged.setByName f.name uv)
              else .error .goPanic
            else
              if assignableTo f.ty.elemD tf.ty then
                .ok (merged.setByName f.name uv.derefD)
              else .error .goPanic
          else .ok merged
        else
          if tf.ty.kind = Kind.kptr then
            if assignableTo f.ty tf.ty.elemD then
              .ok (merged.setByName f.name (.vptrSome tf.ty.elemD uv))
            else .error .goPanic
          else
            if assignableTo f.ty tf.ty then .ok (merged.setByName f.name uv)
            else .error (.fieldTypeMismatch f.name)
      match setRes with
      | .error e => .error e
      | .ok m' =>
        if f.ty.kind = Kind.kchan ∨ f.ty.kind = Kind.kfunc ∨
            f.ty.kind = Kind.kiface then
          .error (.unsupportedFieldType f.name)
        else .ok m'

/-- The update-field loop of `MergeStructUpdateTo`: threads the merged
struct, stopping at the first error (the partially merged struct is kept:
the Go function's freshly allocated struct holds the writes made so far). -/
def mergeFields (xsList : List String) :
    List (StructField × Val) → StructVal → StructVal × Option SErr
  | [], merged => (merged, none)
  | (f, uv) :: rest, merged =>
    match mergeOne xsList f uv merged with
    | .error e => (merged, some e)
    | .ok m' => mergeFields xsList rest m'

/-- The value-level core of `MergeStructUpdateTo(targetStruct, updateStruct,
xsList)` (struccy.go lines 65-129): the freshly allocated merged struct is
initialised with every target field (lines 80-85, so its value is the
target struct), then overlaid by the update loop. -/
def mergeStructVal (target update : StructVal) (xsList : List String) :
    StructVal × Option SErr :=
  mergeFields xsList (update.sty.fields.zip update.vals)
    ⟨target.sty, target.vals⟩

instance {ε α : Type} [DecidableEq ε] [DecidableEq α] :
    DecidableEq (Except ε α) := fun a b =>
  match a, b with
  | .ok x, .ok y =>
    if h : x = y then .isTrue (by rw [h]) else .isFalse (by simp [h])
  | .error x, .error y =>
    if h : x = y then .isTrue (by rw [h]) else .isFalse (by simp [h])
  | .ok _, .error _ => .isFalse (by simp)
  | .error _, .ok _ => .isFalse (by simp)

/-- A heap of struct values; an address is an index, `reflect.New` appends
a fresh cell. -/
abbrev Store := List StructVal

/-- Embeds `MergeStructUpdateTo` at heap level: the target and update
arguments are pointers into the store.  The function allocates a fresh cell
(line 80), copies the target into it (lines 82-85), and every subsequent
write of the loop targets that cell; on success it returns the fresh
address, on error Go returns `nil` (no address).  The not-a-struct-pointer
failures (lines 69-75) are modelled by a dangling address. -/
def MergeStructUpdateTo (σ : Store) (targetAddr updateAddr : Nat)
    (xsList : List String) : Store × Except SErr Nat :=
  match σ.get? targetAddr with
  | none => (σ, .error .targetStructMustBePointer)
  | some target =>
    match σ.get? updateAddr with
    | none => (σ, .error .updateStructMustBePointer)
    | some update =>
      let fresh := σ.length
      let σ₁ := σ ++ [⟨target.sty, target.vals⟩]
      let r := mergeStructVal target update xsList
      match r.2 with
      | some e => (σ₁.set fresh r.1, .error e)
      | none => (σ₁.set fresh r.1, .ok fresh)

/-- The loop of `UpdateStructFields` (struccy.go lines 800-820): iterates
the entity-type field descriptors selected by the incoming struct's field
indices, looks each name up in the incoming struct, checks authorization,
and forwards to `SetField`, accumulating the updated and unsettable field
maps (modelled as association lists in iteration order).  On a `SetField`
error with `ignoreUnsettables = false` the Go function returns
`nil, unsettableFields, err` — the updated-fields map is dropped. -/
def updateFieldsLoop (incoming : StructVal) (roles : List String)
    (skipZeroVals ignoreUnsettables : Bool) :
    List StructField → StructVal → List (String × Val) → List (String × Val) →
    StructVal × List (String × Val) × List (String × Val) × Option SErr
  | [], entity, upd, uns => (entity, upd, uns, none)
  | ef :: rest, entity, upd, uns =>
    match lookupField incoming ef.name with
    | none =>
      updateFieldsLoop incoming roles skipZeroVals ignoreUnsettables rest
        entity upd uns
    | some (_, fieldValue) =>
      if IsAllowedToSetField entity ef.name roles = true then
        let r := SetField entity ef.name fieldValue skipZeroVals roles
        match r.2 with
        | none =>
          updateFieldsLoop incoming roles skipZeroVals ignoreUnsettables rest
            r.1 (upd ++ [(ef.name, fieldValue)]) uns
        | some e =>
          if ignoreUnsettables then
            updateFieldsLoop incoming roles skipZeroVals ignoreUnsettables rest
              r.1 upd (uns ++ [(ef.name, fieldValue)])
          else (r.1, [], uns ++ [(ef.name, fieldValue)], some e)
      else
        updateFieldsLoop incoming roles skipZeroVals ignoreUnsettables rest
          entity upd uns

/-- Embeds `UpdateStructFields(entity, incomingEntity, roles, skipZeroVals,
ignoreUnsettables)` (struccy.go lines 794-822).  The loop bound is the
*incoming* struct's field count while `entityType.Field(i)` indexes the
*entity* type: when the incoming struct has more fields than the entity the
Go code panics after processing the shared prefix (`goPanic`). -/
def UpdateStructFields (entity incoming : StructVal) (roles : List String)
    (skipZeroVals ignoreUnsettables : Bool) :
    StructVal × List (String × Val) × List (String × Val) × Option SErr :=
  let r := updateFieldsLoop incoming roles skipZeroVals ignoreUnsettables
    (entity.sty.fields.take incoming.sty.fields.length) entity [] []
  if incoming.sty.fields.length > entity.sty.fields.length ∧
      r.2.2.2 = none then
    (r.1, r.2.1, r.2.2.1, some .goPanic)
  else r

/-- The per-field result of a successful merge on identically-shaped
structs: a write-denied field keeps the target's value, a nil-pointer
update field is skipped, anything else takes the update value. -/
def overlayField (xs : List String) (f : StructField) (tv uv : Val) : Val :=
  if ¬ (IsFieldAccessAllowed xs f.writexs = true) then tv
  else if f.ty.kind = Kind.kptr then (if uv.isNil then tv else uv)
  else uv

/-- Applies `overlayField` field-wise. -/
def overlayVals (xs : List String) :
    List StructField → List Val → List Val → List Val
  | f :: fs, tv :: tvs, uv :: uvs =>
    overlayField xs f tv uv :: overlayVals xs fs tvs uvs
  | _, tvs, _ => tvs

/-!
## Theorems: settled claims and their supporting lemmas
-/

/-- A string that starts with `!` changes when the `!` is removed. -/
theorem trimPrefixBang_ne (t : String) (h : hasPrefixBang t = true) :
    trimPrefixBang t ≠ t := by
  unfold hasPrefixBang at h
  unfold trimPrefixBang
  cases t with
  | mk data =>
    match data with
    | [] => simp at h
    | '!' :: cs =>
      intro hcontra
      have : cs = '!' :: cs := congrArg String.data hcontra
      exact List.cons_ne_self _ _ this.symm
    | c :: cs =>
      intro hcontra
      split at h
      next heq =>
        cases heq
        have : cs = '!' :: cs := congrArg String.data hcontra
        exact List.cons_ne_self _ _ this.symm
      next => simp at h

/-- A caller role equal to the role named by a negated token present among the
tagged roles makes the inner loop of `IsFieldAccessAllowed` veto. -/
theorem scanRole_veto (t : String) (h : hasPrefixBang t = true) :
    ∀ (tags : List String) (acc : Bool), t ∈ tags →
      scanRole (trimPrefixBang t) tags acc = .veto := by
  intro tags
  induction tags with
  | nil => intro acc hmem; cases hmem
  | cons u us ih =>
    intro acc hmem
    unfold scanRole
    rcases List.mem_cons.mp hmem with rfl | hmem'
    · rw [if_neg (trimPrefixBang_ne t h), h]
      simp
    · by_cases h1 : trimPrefixBang t = u
      · rw [if_pos h1]
        exact ih true hmem'
      · rw [if_neg h1]
        by_cases h2 : hasPrefixBang u = true
        · rw [h2]
          by_cases h3 : trimPrefixBang t = trimPrefixBang u
          · simp [h3]
          · simp only [if_neg h3, ite_true]
            exact ih true hmem'
        · simp only [Bool.not_eq_true] at h2
          rw [h2]
          simp only [Bool.false_eq_true, if_false]
          exact ih acc hmem'

/-- If some caller role vetoes the inner loop, the outer loop of
`IsFieldAccessAllowed` returns `false`. -/
theorem scanRoles_false (tags : List String) (x : String)
    (hveto : ∀ acc : Bool, scanRole x tags acc = .veto) :
    ∀ (roles : List String) (acc : Bool), x ∈ roles →
      scanRoles roles tags acc = false := by
  intro roles
  induction roles with
  | nil => intro acc hmem; cases hmem
  | cons r rs ih =>
    intro acc hmem
    unfold scanRoles
    rcases List.mem_cons.mp hmem with rfl | hmem'
    · rw [hveto acc]
    · cases hsc : scanRole r tags acc with
      | veto => rfl
      | flag acc' => exact ih acc' hmem'

/-- The bare wildcard is the only expression whose tokens can contain no `!`
while the expression still equals `"*"`; conversely, if any token starts with
`!`, the expression is not `"*"`. -/
theorem ne_star_of_bang_token (tagValue : String) (t : String)
    (hmem : t ∈ goSplit tagValue) (h : hasPrefixBang t = true) :
    tagValue ≠ "*" := by
  intro hstar
  subst hstar
  have : goSplit "*" = ["*"] := by decide
  rw [this] at hmem
  rcases List.mem_singleton.mp hmem with rfl
  simp [hasPrefixBang] at h

/-- C1 counterexample: the claim says that with the empty caller role set an
expression containing a negated token evaluates to allowed; on the code,
`IsFieldAccessAllowed` with no roles never enters its role loop and returns
`false` (denied) for the expression `"!guest"`. -/
theorem C1_counterexample : IsFieldAccessAllowed [] "!guest" = false := by decide

/-- C1 (amended): for the empty caller role set, `IsFieldAccessAllowed`
returns denied for every access expression other than the bare wildcard
`"*"` — in particular for every expression containing a negated token.  The
documented default-flip to "allowed" only arises while iterating a non-empty
role set. -/
theorem C1_empty_roles_denied (tagValue : String) (h : tagValue ≠ "*") :
    IsFieldAccessAllowed [] tagValue = false := by
  unfold IsFieldAccessAllowed
  rw [if_neg h]
  rfl

/-- Witness for C1 (amended) at the concrete expression `"!guest"`. -/
theorem C1_empty_roles_denied_witness :
    IsFieldAccessAllowed [] "!guest" = false ∧ "!guest" ≠ "*" :=
  ⟨C1_empty_roles_denied "!guest" (by decide), by decide⟩

/-- C6 counterexample: the claim says a `*` token among the comma-separated
tokens always grants access; on the code only an expression that is exactly
`"*"` short-circuits to allowed, and the role loop never treats a `*` token
specially — the expression `"admin,*"` denies the caller role set
`["user"]`. -/
theorem C6_counterexample : IsFieldAccessAllowed ["user"] "admin,*" = false := by
  decide

/-- C6 (amended): an expression consisting solely of the wildcard `*`
evaluates to allowed for every caller role set (including the empty set);
a `*` appearing merely as one among several comma-separated tokens is not
treated as a wildcard (see the counterexample). -/
theorem C6_lone_wildcard_allowed (roles : List String) :
    IsFieldAccessAllowed roles "*" = true := by
  unfold IsFieldAccessAllowed
  rw [if_pos rfl]

/-- C3 (code bug): `SetField` on an `int` field with the `int8` value `5`
and an authorized caller stores `5` in the field but returns
`ErrInvalidFieldType` instead of the `nil` error the claim (and `SetField`'s
own documentation, which promises an error only for values not convertible
to the field type) prescribe: the convertible branch of `setReflectField`
performs the `Set` and then unconditionally returns the error
(struccy.go line 1008). -/
theorem C3_int8_into_int_sets_but_errors :
    SetField ⟨⟨[⟨"Field2", .tint, "", "admin"⟩]⟩, [.vint 10]⟩
      "Field2" (.vint8 5) false ["admin"] =
    (⟨⟨[⟨"Field2", .tint, "", "admin"⟩]⟩, [.vint 5]⟩, some .invalidFieldType) := by
  decide

/-- C4 (code bug): `SetField` on an `int` field previously holding `10` with
the `float64` value `3.9` and an authorized caller returns
`ErrInvalidFieldType`, but — contrary to the claim that the field is left
unchanged — it stores the truncated value `3`: `float64` *is*
Go-convertible to `int`, so the convertible branch of `setReflectField`
performs `field.Set(val.Convert(fieldType))` before returning the error
(struccy.go lines 998-1008); the float-rejecting `canConvertInt` guard at
line 961 is unreachable for float values. -/
theorem C4_float_into_int_truncates_and_errors :
    SetField ⟨⟨[⟨"Field2", .tint, "", "admin"⟩]⟩, [.vint 10]⟩
      "Field2" (.vfloat64 ⟨39, 10, by decide, by decide⟩) false ["admin"] =
    (⟨⟨[⟨"Field2", .tint, "", "admin"⟩]⟩, [.vint 3]⟩, some .invalidFieldType) := by
  decide

/-- C2 counterexample: the claim says a read-denied destination field never
receives a source value, whatever the type relationship.  Here the source
field is `*int` pointing at `7`, the destination field is `int`, the read
policy `"admin"` denies the caller roles `["user"]`, and `zeroDisallowed` is
true — yet `FilterStructTo` copies `7` into the destination, because the
pointer-reconciliation branch (struccy.go lines 295-302) runs before, and
without, the read-access check. -/
theorem C2_counterexample :
    FilterStructTo
      ⟨⟨[⟨"F", .tptr .tint, "admin", "admin"⟩]⟩, [.vptrSome .tint (.vint 7)]⟩
      ⟨⟨[⟨"F", .tint, "admin", "admin"⟩]⟩, [.vint 0]⟩
      ["user"] true =
    (⟨⟨[⟨"F", .tint, "admin", "admin"⟩]⟩, [.vint 7]⟩, none) ∧
    IsFieldAccessAllowed ["user"] "admin" = false := by
  constructor
  · decide
  · decide

/-- Helper for C2: on a read-denied field whose source field has the
identical type, the loop body zeroes the field or leaves it, per
`zeroDisallowed`. -/
theorem filterOne_denied (source : StructVal) (xs : List String) (zd : Bool)
    (f : StructField) (dv : Val) (sf : StructField) (sv : Val)
    (hsrc : lookupField source f.name = some (sf, sv)) (hty : sf.ty = f.ty)
    (hdeny : IsFieldAccessAllowed xs f.readxs = false) :
    filterOne source xs zd f dv = .ok (if zd then zeroVal f.ty else dv) := by
  unfold filterOne
  rw [hsrc]
  simp [hty, hdeny]

/-- Helper for C2: the per-index description of a completed
`filterFields` run on a read-denied, identically-typed field. -/
theorem filterFields_read_denied (source : StructVal) (xs : List String)
    (zd : Bool) (sf : StructField) (sv : Val) :
    ∀ (pairs : List (StructField × Val)) (j : Nat) (f : StructField) (dv : Val),
      (filterFields source xs zd pairs).2 = none →
      pairs.get? j = some (f, dv) →
      lookupField source f.name = some (sf, sv) →
      sf.ty = f.ty →
      IsFieldAccessAllowed xs f.readxs = false →
      (filterFields source xs zd pairs).1.get? j =
        some (if zd then zeroVal f.ty else dv) := by
  intro pairs
  induction pairs with
  | nil => intro j f dv _ hj; simp at hj
  | cons p rest ih =>
    intro j f dv hok hj hsrc hty hdeny
    obtain ⟨g, w⟩ := p
    unfold filterFields at hok ⊢
    cases hone : filterOne source xs zd g w with
    | error e => rw [hone] at hok; simp at hok
    | ok v =>
      rw [hone] at hok
      replace hok : (filterFields source xs zd rest).2 = none := hok
      match j with
      | 0 =>
        simp only [List.get?] at hj
        cases hj
        have hv : Except.ok (ε := SErr) v =
            .ok (if zd then zeroVal f.ty else dv) := by
          rw [← hone]
          exact filterOne_denied source xs zd f dv sf sv hsrc hty hdeny
        simp only [Except.ok.injEq] at hv
        show some v = _
        rw [hv]
      | Nat.succ j' =>
        simp only [List.get?] at hj
        show (filterFields source xs zd rest).1.get? j' = _
        exact ih j' f dv hok hj hsrc hty hdeny

/-- C2 (amended): the read access check of `FilterStructTo` is evaluated
only for destination fields whose declared type is identical to the source
field's; for those, a denial resets the destination field to its zero value
when `zeroDisallowed` is true and leaves it unchanged otherwise, and no
source value is copied.  (Fields that go through the pointer/slice
reconciliation branch are copied without any read-policy evaluation — see
the counterexample.) -/
theorem C2_read_denied_same_type (source dst : StructVal) (xs : List String)
    (zd : Bool) (j : Nat) (f : StructField) (dv : Val) (sf : StructField)
    (sv : Val)
    (hok : (FilterStructTo source dst xs zd).2 = none)
    (hf : dst.sty.fields.get? j = some f)
    (hv : dst.vals.get? j = some dv)
    (hsrc : lookupField source f.name = some (sf, sv))
    (hty : sf.ty = f.ty)
    (hdeny : IsFieldAccessAllowed xs f.readxs = false) :
    (FilterStructTo source dst xs zd).1.vals.get? j =
      some (if zd then zeroVal f.ty else dv) := by
  have hzip : (dst.sty.fields.zip dst.vals).get? j = some (f, dv) := by
    simp only [List.get?_eq_getElem?] at hf hv ⊢
    simp [List.getElem?_zip_eq_some, hf, hv]
  exact filterFields_read_denied source xs zd sf sv _ j f dv hok hzip hsrc hty
    hdeny

/-- Witness for C2 (amended): a same-typed `int` field with read policy
`"admin"`, caller roles `["user"]`, `zeroDisallowed = true` — the
destination field is zeroed, not copied. -/
theorem C2_read_denied_same_type_witness :
    (FilterStructTo ⟨⟨[⟨"F", .tint, "admin", "admin"⟩]⟩, [.vint 5]⟩
      ⟨⟨[⟨"F", .tint, "admin", "admin"⟩]⟩, [.vint 9]⟩ ["user"] true).1.vals.get? 0 =
      some (if true then zeroVal .tint else .vint 9) :=
  C2_read_denied_same_type
    ⟨⟨[⟨"F", .tint, "admin", "admin"⟩]⟩, [.vint 5]⟩
    ⟨⟨[⟨"F", .tint, "admin", "admin"⟩]⟩, [.vint 9]⟩ ["user"] true 0
    ⟨"F", .tint, "admin", "admin"⟩ (.vint 9) ⟨"F", .tint, "admin", "admin"⟩
    (.vint 5) (by decide) (by decide) (by decide) (by decide) (by decide)
    (by decide)

/-- C5: a negated token `!x` in an access expression together with a caller
role set containing `x` forces `IsFieldAccessAllowed` to return denied —
a hard veto, whatever the other tokens and roles; consequently a field whose
`writexs` carries that expression makes `IsAllowedToSetField` false and
`SetField` return `ErrUnauthorizedFieldSet` with the entity untouched, and
the merge loop of `MergeStructUpdateTo` skips the field, leaving the merged
struct unchanged for that iteration.  The negated token is characterised as
the code does: a token of the expression starting with `!` whose remainder
after `strings.TrimPrefix` is a caller role. -/
theorem C5_negated_role_veto (roles : List String) (expr : String) (t : String)
    (hmem : t ∈ goSplit expr) (hpfx : hasPrefixBang t = true)
    (hrole : trimPrefixBang t ∈ roles) :
    IsFieldAccessAllowed roles expr = false ∧
    (∀ (entity : StructVal) (fieldName : String) (f : StructField),
      entity.sty.fields.find? (fun g => g.name = fieldName) = some f →
      f.writexs = expr →
      IsAllowedToSetField entity fieldName roles = false) ∧
    (∀ (entity : StructVal) (fieldName : String) (f : StructField)
      (value : Val) (sz : Bool),
      entity.sty.fields.find? (fun g => g.name = fieldName) = some f →
      f.writexs = expr →
      SetField entity fieldName value sz roles =
        (entity, some .unauthorizedFieldSet)) ∧
    (∀ (f : StructField) (uv : Val) (merged : StructVal) (tf : StructField)
      (tv : Val),
      lookupField merged f.name = some (tf, tv) →
      f.writexs = expr →
      mergeOne roles f uv merged = .ok merged) := by
  have hdeny : IsFieldAccessAllowed roles expr = false := by
    unfold IsFieldAccessAllowed
    rw [if_neg (ne_star_of_bang_token expr t hmem hpfx)]
    exact scanRoles_false (goSplit expr) (trimPrefixBang t)
      (fun acc => scanRole_veto t hpfx (goSplit expr) acc hmem) roles false hrole
  have hallow : ∀ (entity : StructVal) (fieldName : String) (f : StructField),
      entity.sty.fields.find? (fun g => g.name = fieldName) = some f →
      f.writexs = expr →
      IsAllowedToSetField entity fieldName roles = false := by
    intro entity fieldName f hfind hwx
    unfold IsAllowedToSetField
    rw [hfind]
    show IsFieldAccessAllowed roles f.writexs = false
    rw [hwx, hdeny]
  refine ⟨hdeny, hallow, ?_, ?_⟩
  · intro entity fieldName f value sz hfind hwx
    unfold SetField
    rw [hfind]
    dsimp only
    rw [if_pos (by simp [hallow entity fieldName f hfind hwx])]
  · intro f uv merged tf tv hlk hwx
    unfold mergeOne
    rw [hlk]
    dsimp only
    rw [if_pos (by simp [hwx, hdeny])]

/-- Witness for C5 at the expression `"a,!x"`, roles `["x"]`, together with
a one-field entity and merged struct. -/
theorem C5_negated_role_veto_witness :
    IsFieldAccessAllowed ["x"] "a,!x" = false ∧
    SetField ⟨⟨[⟨"F", .tint, "*", "a,!x"⟩]⟩, [.vint 1]⟩ "F" (.vint 2) false
      ["x"] = (⟨⟨[⟨"F", .tint, "*", "a,!x"⟩]⟩, [.vint 1]⟩,
        some .unauthorizedFieldSet) ∧
    mergeOne ["x"] ⟨"F", .tint, "*", "a,!x"⟩ (.vint 2)
      ⟨⟨[⟨"F", .tint, "*", "a,!x"⟩]⟩, [.vint 1]⟩ =
      .ok ⟨⟨[⟨"F", .tint, "*", "a,!x"⟩]⟩, [.vint 1]⟩ := by
  have h := C5_negated_role_veto ["x"] "a,!x" "!x" (by decide) (by decide)
    (by decide)
  exact ⟨h.1,
    h.2.2.1 ⟨⟨[⟨"F", .tint, "*", "a,!x"⟩]⟩, [.vint 1]⟩ "F"
      ⟨"F", .tint, "*", "a,!x"⟩ (.vint 2) false (by decide) rfl,
    h.2.2.2 ⟨"F", .tint, "*", "a,!x"⟩ (.vint 2)
      ⟨⟨[⟨"F", .tint, "*", "a,!x"⟩]⟩, [.vint 1]⟩ ⟨"F", .tint, "*", "a,!x"⟩
      (.vint 1) (by decide) rfl⟩

/-- C7 counterexample: the claim says every public write operation rejects
channel/function/interface-kinded fields with a hard unsupported-kind
failure; but `SetField` (and therefore `UpdateStructFields`) has no such
check — with a write-permitting policy it assigns a channel value to a
channel-kinded field and returns no error at all. -/
theorem C7_counterexample :
    SetField ⟨⟨[⟨"C", .tchan .tint, "*", "*"⟩]⟩, [.vchan .tint none]⟩ "C"
      (.vchan .tint (some 1)) false ["admin"] =
    (⟨⟨[⟨"C", .tchan .tint, "*", "*"⟩]⟩, [.vchan .tint (some 1)]⟩, none) := by
  decide

/-- Helper for C7: a write-permitted chan/func/interface-kinded update field
makes its merge iteration fail. -/
theorem mergeOne_unsupported (xs : List String) (f : StructField) (uv : Val)
    (merged : StructVal)
    (hallow : IsFieldAccessAllowed xs f.writexs = true)
    (hkind : f.ty.kind = Kind.kchan ∨ f.ty.kind = Kind.kfunc ∨
      f.ty.kind = Kind.kiface) :
    ∀ m', mergeOne xs f uv merged ≠ .ok m' := by
  intro m' hcontra
  unfold mergeOne at hcontra
  cases hlk : lookupField merged f.name with
  | none => rw [hlk] at hcontra; simp at hcontra
  | some tfv =>
    rw [hlk] at hcontra
    obtain ⟨tf, tv⟩ := tfv
    dsimp only at hcontra
    rw [if_neg (by simp [hallow])] at hcontra
    split at hcontra
    next => simp at hcontra
    next m'' hm'' =>
      rw [if_pos hkind] at hcontra
      simp at hcontra

/-- C7 (amended): only `MergeStructUpdateTo` enforces the unsupported-kind
rejection: a merge that completes without error had no write-permitted
channel-, function- or interface-kinded update field (equivalently, such a
field always aborts the merge — and when it is the first failing field, the
error is `ErrUnsupportedFieldType`, distinct from the coercion errors).
`SetField` and `UpdateStructFields` perform no such check and silently
assign such fields (see the counterexample). -/
theorem C7_merge_rejects_unsupported (target update : StructVal)
    (xs : List String)
    (hok : (mergeStructVal target update xs).2 = none) :
    ∀ (f : StructField) (uv : Val),
      (f, uv) ∈ update.sty.fields.zip update.vals →
      IsFieldAccessAllowed xs f.writexs = true →
      ¬ (f.ty.kind = Kind.kchan ∨ f.ty.kind = Kind.kfunc ∨
        f.ty.kind = Kind.kiface) := by
  unfold mergeStructVal at hok
  revert hok
  generalize update.sty.fields.zip update.vals = pairs
  generalize (⟨target.sty, target.vals⟩ : StructVal) = merged
  revert merged
  induction pairs with
  | nil => intro merged _ f uv hmem; cases hmem
  | cons p rest ih =>
    intro merged hok f uv hmem
    obtain ⟨g, w⟩ := p
    unfold mergeFields at hok
    cases hone : mergeOne xs g w merged with
    | error e => rw [hone] at hok; simp at hok
    | ok m' =>
      rw [hone] at hok
      rcases List.mem_cons.mp hmem with heq | hmem'
      · cases heq
        intro hallow hkind
        exact mergeOne_unsupported xs f uv merged hallow hkind m' hone
      · exact ih m' hok f uv hmem'

/-- Witness for C7 (amended): a successful one-field merge whose permitted
field is an `int` — the theorem instantiated at it certifies the field is
not chan/func/interface-kinded. -/
theorem C7_merge_rejects_unsupported_witness :
    ¬ ((Ty.tint.kind = Kind.kchan ∨ Ty.tint.kind = Kind.kfunc ∨
      Ty.tint.kind = Kind.kiface)) :=
  (fun h =>
    C7_merge_rejects_unsupported
      ⟨⟨[⟨"A", .tint, "*", "*"⟩]⟩, [.vint 1]⟩
      ⟨⟨[⟨"A", .tint, "*", "*"⟩]⟩, [.vint 2]⟩ ["x"] (by decide)
      ⟨"A", .tint, "*", "*"⟩ (.vint 2) (by decide) (by decide) h)

/-- Helper for C10: `SetField` never reads its `skipZeroVals` argument. -/
theorem SetField_skip_irrel (entity : StructVal) (fieldName : String)
    (value : Val) (roles : List String) (s₁ s₂ : Bool) :
    SetField entity fieldName value s₁ roles =
      SetField entity fieldName value s₂ roles := rfl

/-- Helper for C10: the update loop is insensitive to `skipZeroVals`. -/
theorem updateFieldsLoop_skip_irrel (incoming : StructVal)
    (roles : List String) (s₁ s₂ ign : Bool) :
    ∀ (efs : List StructField) (entity : StructVal)
      (upd uns : List (String × Val)),
      updateFieldsLoop incoming roles s₁ ign efs entity upd uns =
      updateFieldsLoop incoming roles s₂ ign efs entity upd uns := by
  intro efs
  induction efs with
  | nil => intro entity upd uns; rfl
  | cons ef rest ih =>
    intro entity upd uns
    unfold updateFieldsLoop
    cases lookupField incoming ef.name with
    | none => exact ih entity upd uns
    | some p =>
      obtain ⟨_, fieldValue⟩ := p
      dsimp only
      by_cases hall : IsAllowedToSetField entity ef.name roles = true
      · rw [if_pos hall, if_pos hall]
        rw [SetField_skip_irrel entity ef.name fieldValue roles s₁ s₂]
        cases (SetField entity ef.name fieldValue s₂ roles).2 with
        | none => exact ih _ _ _
        | some e =>
          cases ign with
          | true => dsimp only; rw [if_pos rfl, if_pos rfl]; exact ih _ _ _
          | false => rfl
      · rw [if_neg hall, if_neg hall]
        exact ih entity upd uns

/-- C10: the `skipZeroVals` flag of `SetField` has no effect: the Go
function declares but never reads it (the zero/nil skip at line 850 is
unconditional), so two calls differing only in that flag return the same
error and the same final entity; `UpdateStructFields`, which only forwards
the flag to `SetField`, is likewise insensitive to it. -/
theorem C10_skipZeroVals_no_effect :
    (∀ (entity : StructVal) (fieldName : String) (value : Val)
      (roles : List String) (s₁ s₂ : Bool),
      SetField entity fieldName value s₁ roles =
        SetField entity fieldName value s₂ roles) ∧
    (∀ (entity incoming : StructVal) (roles : List String) (s₁ s₂ ign : Bool),
      UpdateStructFields entity incoming roles s₁ ign =
        UpdateStructFields entity incoming roles s₂ ign) := by
  refine ⟨fun _ _ _ _ _ _ => rfl, ?_⟩
  intro entity incoming roles s₁ s₂ ign
  unfold UpdateStructFields
  rw [updateFieldsLoop_skip_irrel incoming roles s₁ s₂ ign]

/-- Looking up a field that sits right after a prefix of fields with other
names finds it, paired with the aligned value. -/
theorem lookupField_aligned (f : StructField) (c : Val) :
    ∀ (done : List StructField) (pv : List Val) (rest : List StructField)
      (cv : List Val),
      pv.length = done.length →
      (∀ g ∈ done, g.name ≠ f.name) →
      lookupField ⟨⟨done ++ f :: rest⟩, pv ++ c :: cv⟩ f.name = some (f, c) := by
  intro done
  induction done with
  | nil =>
    intro pv rest cv hlen _
    match pv with
    | [] =>
      unfold lookupField
      simp only [List.nil_append, List.zip_cons_cons]
      rw [List.find?_cons_of_pos _ (by simp)]
  | cons d ds ih =>
    intro pv rest cv hlen hne
    match pv with
    | [] => simp at hlen
    | q :: qs =>
      unfold lookupField
      simp only [List.cons_append, List.zip_cons_cons]
      rw [List.find?_cons_of_neg _ (by simp [hne d (List.mem_cons_self d ds)])]
      have := ih qs rest cv (by simpa using hlen)
        (fun g hg => hne g (List.mem_cons_of_mem d hg))
      unfold lookupField at this
      exact this

/-- Setting a field that sits right after a prefix of fields with other
names replaces exactly the aligned value. -/
theorem setValsByName_aligned (f : StructField) (v : Val) :
    ∀ (done : List StructField) (pv : List Val) (rest : List StructField)
      (c : Val) (cv : List Val),
      pv.length = done.length →
      (∀ g ∈ done, g.name ≠ f.name) →
      setValsByName (done ++ f :: rest) (pv ++ c :: cv) f.name v =
        pv ++ v :: cv := by
  intro done
  induction done with
  | nil =>
    intro pv rest c cv hlen _
    match pv with
    | [] =>
      unfold setValsByName
      simp
  | cons d ds ih =>
    intro pv rest c cv hlen hne
    match pv with
    | [] => simp at hlen
    | q :: qs =>
      unfold setValsByName
      simp only [List.cons_append]
      rw [if_neg (hne d (List.mem_cons_self d ds))]
      rw [ih qs rest c cv (by simpa using hlen)
        (fun g hg => hne g (List.mem_cons_of_mem d hg))]

/-- One merge iteration on an aligned field: a write-permitted
chan/func/interface-kinded field errors, every other case succeeds and the
aligned value becomes `overlayField`. -/
theorem mergeOne_aligned (xs : List String) (f : StructField) (uv : Val)
    (done : List StructField) (pv : List Val) (rest : List StructField)
    (c : Val) (cv : List Val)
    (hlen : pv.length = done.length)
    (hne : ∀ g ∈ done, g.name ≠ f.name) :
    mergeOne xs f uv ⟨⟨done ++ f :: rest⟩, pv ++ c :: cv⟩ =
      if IsFieldAccessAllowed xs f.writexs = true ∧
          (f.ty.kind = Kind.kchan ∨ f.ty.kind = Kind.kfunc ∨
            f.ty.kind = Kind.kiface) then
        .error (.unsupportedFieldType f.name)
      else
        .ok ⟨⟨done ++ f :: rest⟩, pv ++ overlayField xs f c uv :: cv⟩ := by
  unfold mergeOne
  rw [lookupField_aligned f c done pv rest cv hlen hne]
  dsimp only
  have hset := setValsByName_aligned f uv done pv rest c cv hlen hne
  by_cases hallow : IsFieldAccessAllowed xs f.writexs = true
  · by_cases hptr : f.ty.kind = Kind.kptr
    · by_cases hnil : uv.isNil = true
      · simp [hallow, hptr, hnil, overlayField]
      · simp [hallow, hptr, hnil, overlayField, assignableTo,
          StructVal.setByName, hset]
    · by_cases huns : f.ty.kind = Kind.kchan ∨ f.ty.kind = Kind.kfunc ∨
          f.ty.kind = Kind.kiface
      · simp [hallow, hptr, huns, assignableTo, StructVal.setByName, hset]
      · simp [hallow, hptr, huns, overlayField, assignableTo,
          StructVal.setByName, hset]
  · simp [hallow, overlayField]

/-- A completed merge loop on identically-shaped structs computes
`overlayVals` on the yet-unprocessed suffix. -/
theorem mergeFields_ok_vals (xs : List String) :
    ∀ (rest : List StructField) (uvs : List Val) (done : List StructField)
      (pv cv : List Val) (m : StructVal),
      pv.length = done.length →
      cv.length = rest.length →
      uvs.length = rest.length →
      ((done ++ rest).map StructField.name).Nodup →
      mergeFields xs (rest.zip uvs) ⟨⟨done ++ rest⟩, pv ++ cv⟩ = (m, none) →
      m = ⟨⟨done ++ rest⟩, pv ++ overlayVals xs rest cv uvs⟩ := by
  intro rest
  induction rest with
  | nil =>
    intro uvs done pv cv m _ hcv _ _ hrun
    match cv, hcv with
    | [], _ =>
      cases uvs with
      | nil =>
        unfold mergeFields at hrun
        simp only [List.zip_nil_left] at hrun
        cases hrun
        rfl
      | cons u us =>
        unfold mergeFields at hrun
        simp only [List.zip_nil_left] at hrun
        cases hrun
        rfl
  | cons f rest' ih =>
    intro uvs done pv cv m hpv hcv huvs hnd hrun
    match cv, uvs with
    | c :: cv', uv :: uvs' =>
      have hne : ∀ g ∈ done, g.name ≠ f.name := by
        intro g hg hcontra
        have hnd' := hnd
        rw [List.map_append] at hnd'
        have hdisj := (List.nodup_append.mp hnd').2.2
        exact hdisj (List.mem_map_of_mem StructField.name hg)
          (by rw [hcontra]; simp)
      simp only [List.zip_cons_cons] at hrun
      unfold mergeFields at hrun
      rw [mergeOne_aligned xs f uv done pv rest' c cv' hpv hne] at hrun
      by_cases huns : IsFieldAccessAllowed xs f.writexs = true ∧
          (f.ty.kind = Kind.kchan ∨ f.ty.kind = Kind.kfunc ∨
            f.ty.kind = Kind.kiface)
      · rw [if_pos huns] at hrun
        simp at hrun
      · rw [if_neg huns] at hrun
        have hrw : (done ++ f :: rest' : List StructField) =
            (done ++ [f]) ++ rest' := by simp
        have hrwv : pv ++ overlayField xs f c uv :: cv' =
            (pv ++ [overlayField xs f c uv]) ++ cv' := by simp
        rw [hrw, hrwv] at hrun
        dsimp only at hrun
        have := ih uvs' (done ++ [f]) (pv ++ [overlayField xs f c uv]) cv' m
          (by simp [hpv]) (by simpa using hcv) (by simpa using huvs)
          (by simpa using hnd) hrun
        rw [this]
        simp [overlayVals]
    | [], _ => simp at hcv
    | _ :: _, [] => simp at huvs

/-- A `get?` returning `some` bounds the index. -/
theorem get?_some_lt {σ : Store} {a : Nat} {s : StructVal}
    (h : σ.get? a = some s) : a < σ.length := by
  by_contra hcon
  push_neg at hcon
  rw [List.get?_eq_none.mpr hcon] at h
  cases h

/-- C9: `MergeStructUpdateTo` never writes through its target or update
pointers: every pre-existing store cell — in particular the target and the
update struct — holds its original value after the call, whether the call
errors or succeeds (so an error leaves no partial application visible
through the target pointer).  On success the returned address is the
freshly allocated cell, distinct from both arguments; for
identically-shaped structs with distinct field names the fresh cell holds
exactly the target overlaid with the policy-permitted update fields. -/
theorem C9_merge_frame (σ : Store) (ta ua : Nat) (xs : List String) :
    (∀ a, a < σ.length →
      ((MergeStructUpdateTo σ ta ua xs).1).get? a = σ.get? a) ∧
    (∀ r, (MergeStructUpdateTo σ ta ua xs).2 = .ok r →
      r = σ.length ∧ ta ≠ r ∧ ua ≠ r) ∧
    (∀ (target update : StructVal) (r : Nat),
      σ.get? ta = some target → σ.get? ua = some update →
      update.sty = target.sty →
      (target.sty.fields.map StructField.name).Nodup →
      target.vals.length = target.sty.fields.length →
      update.vals.length = target.sty.fields.length →
      (MergeStructUpdateTo σ ta ua xs).2 = .ok r →
      ((MergeStructUpdateTo σ ta ua xs).1).get? r =
        some ⟨target.sty, overlayVals xs target.sty.fields target.vals
          update.vals⟩) := by
  unfold MergeStructUpdateTo
  cases hta : σ.get? ta with
  | none =>
    dsimp only
    refine ⟨fun a _ => rfl, (fun r hr => nomatch hr), ?_⟩
    intro target update r hta' hua' hsty hnd hlt hlu hr
    cases hr
  | some target₀ =>
    dsimp only
    cases hua : σ.get? ua with
    | none =>
      dsimp only
      refine ⟨fun a _ => rfl, (fun r hr => nomatch hr), ?_⟩
      intro target update r hta' hua' hsty hnd hlt hlu hr
      cases hr
    | some upd₀ =>
      dsimp only
      have hframe : ∀ (m : StructVal) (a : Nat), a < σ.length →
          (((σ ++ [(⟨target₀.sty, target₀.vals⟩ : StructVal)]).set σ.length
            m).get? a) = σ.get? a := by
        intro m a ha
        rw [List.get?_set_ne _ _ (by omega)]
        exact List.get?_append ha
      cases hm2 : (mergeStructVal target₀ upd₀ xs).2 with
      | some e =>
        dsimp only
        refine ⟨fun a ha => hframe _ a ha, (fun r hr => nomatch hr), ?_⟩
        intro target update r hta' hua' hsty hnd hlt hlu hr
        cases hr
      | none =>
        dsimp only
        refine ⟨fun a ha => hframe _ a ha, ?_, ?_⟩
        · intro r hr
          cases hr
          have h1 : ta < σ.length := get?_some_lt hta
          have h2 : ua < σ.length := get?_some_lt hua
          exact ⟨rfl, by omega, by omega⟩
        · intro target update r hta' hua' hsty hnd hlt hlu hr
          cases hr
          cases hta'
          cases hua'
          have hm : (mergeStructVal target₀ upd₀ xs).1 =
              ⟨target₀.sty, overlayVals xs target₀.sty.fields target₀.vals
                upd₀.vals⟩ := by
            have hpair : mergeFields xs
                (upd₀.sty.fields.zip upd₀.vals)
                ⟨target₀.sty, target₀.vals⟩ =
                ((mergeStructVal target₀ upd₀ xs).1, none) := by
              rw [Prod.ext_iff]
              exact ⟨rfl, hm2⟩
            rw [hsty] at hpair
            exact mergeFields_ok_vals xs target₀.sty.fields upd₀.vals [] []
              target₀.vals _ rfl hlt hlu (by simpa using hnd) hpair
          rw [hm]
          exact List.get?_set_eq_of_lt _ (by simp)

/-- Witness for C9 at a concrete two-cell store. -/
theorem C9_merge_frame_witness :
    ((MergeStructUpdateTo
      [⟨⟨[⟨"A", .tint, "*", "*"⟩]⟩, [.vint 1]⟩,
       ⟨⟨[⟨"A", .tint, "*", "*"⟩]⟩, [.vint 2]⟩] 0 1 ["x"]).1).get? 0 =
      some ⟨⟨[⟨"A", .tint, "*", "*"⟩]⟩, [.vint 1]⟩ ∧
    ((MergeStructUpdateTo
      [⟨⟨[⟨"A", .tint, "*", "*"⟩]⟩, [.vint 1]⟩,
       ⟨⟨[⟨"A", .tint, "*", "*"⟩]⟩, [.vint 2]⟩] 0 1 ["x"]).1).get? 2 =
      some ⟨⟨[⟨"A", .tint, "*", "*"⟩]⟩,
        overlayVals ["x"] [⟨"A", .tint, "*", "*"⟩] [.vint 1] [.vint 2]⟩ := by
  have h := C9_merge_frame
    [⟨⟨[⟨"A", .tint, "*", "*"⟩]⟩, [.vint 1]⟩,
     ⟨⟨[⟨"A", .tint, "*", "*"⟩]⟩, [.vint 2]⟩] 0 1 ["x"]
  refine ⟨(h.1 0 (by decide)).trans (by decide), ?_⟩
  exact h.2.2 ⟨⟨[⟨"A", .tint, "*", "*"⟩]⟩, [.vint 1]⟩
    ⟨⟨[⟨"A", .tint, "*", "*"⟩]⟩, [.vint 2]⟩ 2 (by decide) (by decide) rfl
    (by decide) (by decide) (by decide) (by decide)

/-- Writes one destination value per destination field: the length of the
value list `filterFields` produces equals the number of processed pairs. -/
theorem filterFields_length (source : StructVal) (xs : List String)
    (zd : Bool) :
    ∀ pairs : List (StructField × Val),
      ((filterFields source xs zd pairs).1).length = pairs.length := by
  intro pairs
  induction pairs with
  | nil => rfl
  | cons p rest ih =>
    obtain ⟨f, dv⟩ := p
    unfold filterFields
    cases filterOne source xs zd f dv with
    | error e => simp
    | ok v => simpa using ih

/-- Reading `overlayVals` at an index where all three lists are defined. -/
theorem overlayVals_get? (xs : List String) :
    ∀ (fields : List StructField) (tvs uvs : List Val) (j : Nat)
      (f : StructField) (tv uv : Val),
      fields.get? j = some f → tvs.get? j = some tv → uvs.get? j = some uv →
      (overlayVals xs fields tvs uvs).get? j =
        some (overlayField xs f tv uv) := by
  intro fields
  induction fields with
  | nil => intro tvs uvs j f tv uv hf; simp at hf
  | cons g gs ih =>
    intro tvs uvs j f tv uv hf htv huv
    match tvs, uvs with
    | [], _ => simp at htv
    | _ :: _, [] => simp at huv
    | t :: ts, u :: us =>
      unfold overlayVals
      match j with
      | 0 =>
        simp only [List.get?] at hf htv huv ⊢
        cases hf; cases htv; cases huv
        rfl
      | Nat.succ j' =>
        simp only [List.get?] at hf htv huv ⊢
        exact ih ts us j' f tv uv hf htv huv

/-- C8 counterexample: with a single `*`-readable, `*`-writable `*int`
field, source holding `nil` and destination holding a pointer to `7`,
`Filter(source, dest, roles, zeroDisallowed := true)` leaves the
destination's stale pointer in place (nil source pointer, `zeroDisallowed`)
and the subsequent `Merge(dest, source, roles)` skips the nil update
pointer — the round trip yields a pointer to `7` where the source holds
`nil`, so a readable-and-writable field is not reproduced. -/
theorem C8_counterexample :
    mergeStructVal
      (FilterStructTo ⟨⟨[⟨"P", .tptr .tint, "*", "*"⟩]⟩, [.vptrNil .tint]⟩
        ⟨⟨[⟨"P", .tptr .tint, "*", "*"⟩]⟩, [.vptrSome .tint (.vint 7)]⟩
        ["r"] true).1
      ⟨⟨[⟨"P", .tptr .tint, "*", "*"⟩]⟩, [.vptrNil .tint]⟩ ["r"] =
    (⟨⟨[⟨"P", .tptr .tint, "*", "*"⟩]⟩, [.vptrSome .tint (.vint 7)]⟩, none) ∧
    IsFieldAccessAllowed ["r"] "*" = true := by
  constructor
  · decide
  · decide

/-- C8 (amended): for identically-shaped source and destination structs
with distinct field names, if `FilterStructTo(source, dest, roles,
zeroDisallowed := true)` followed by `MergeStructUpdateTo(dest, source,
roles)` completes without error, then every field that is readable and
writable under the roles *and whose source value is not a nil pointer*
ends up holding exactly the source's value.  (A nil source pointer is not
reproduced: the filter leaves the destination's old value when
`zeroDisallowed` is true and the merge skips nil update pointers — see the
counterexample.) -/
theorem C8_roundtrip (source dest : StructVal) (xs : List String)
    (hsty : dest.sty = source.sty)
    (hnd : (source.sty.fields.map StructField.name).Nodup)
    (hld : dest.vals.length = source.sty.fields.length)
    (hls : source.vals.length = source.sty.fields.length)
    (hmok : (mergeStructVal (FilterStructTo source dest xs true).1 source
      xs).2 = none) :
    ∀ (j : Nat) (f : StructField) (sv : Val),
      source.sty.fields.get? j = some f →
      source.vals.get? j = some sv →
      IsFieldAccessAllowed xs f.readxs = true →
      IsFieldAccessAllowed xs f.writexs = true →
      ¬ (f.ty.kind = Kind.kptr ∧ sv.isNil = true) →
      ((mergeStructVal (FilterStructTo source dest xs true).1 source
        xs).1).vals.get? j = some sv := by
  intro j f sv hf hsv hread hwrite hnotnil
  have hdlen : ((FilterStructTo source dest xs true).1).vals.length =
      source.sty.fields.length := by
    show ((filterFields source xs true
      (dest.sty.fields.zip dest.vals)).1).length = _
    rw [filterFields_length]
    rw [List.length_zip, hsty, hld]
    exact Nat.min_self _
  have key : ∀ (d : StructVal), d.sty = source.sty →
      d.vals.length = source.sty.fields.length →
      (mergeStructVal d source xs).2 = none →
      (mergeStructVal d source xs).1 =
        ⟨source.sty, overlayVals xs source.sty.fields d.vals source.vals⟩ := by
    intro d hdsty hdlen2 hdok
    obtain ⟨dsty, dvals⟩ := d
    dsimp only at hdsty hdlen2 hdok ⊢
    subst hdsty
    have hpair : mergeFields xs (source.sty.fields.zip source.vals)
        ⟨source.sty, dvals⟩ =
        ((mergeStructVal ⟨source.sty, dvals⟩ source xs).1, none) := by
      rw [Prod.ext_iff]
      exact ⟨rfl, hdok⟩
    exact mergeFields_ok_vals xs source.sty.fields source.vals [] [] dvals _
      rfl hdlen2 hls (by simpa using hnd) hpair
  have hm := key (FilterStructTo source dest xs true).1 hsty hdlen hmok
  rw [hm]
  have hjlt : j < source.sty.fields.length := by
    by_contra hcon
    push_neg at hcon
    rw [List.get?_eq_none.mpr hcon] at hf
    cases hf
  cases hdv : ((FilterStructTo source dest xs true).1).vals.get? j with
  | none =>
    rw [List.get?_eq_none] at hdv
    omega
  | some dv =>
    rw [overlayVals_get? xs source.sty.fields _ source.vals j f dv sv hf hdv
      hsv]
    unfold overlayField
    rw [if_neg (by simp [hwrite])]
    by_cases hptr : f.ty.kind = Kind.kptr
    · rw [if_pos hptr]
      have : sv.isNil = false := by
        cases hnil : sv.isNil with
        | true => exact absurd ⟨hptr, hnil⟩ hnotnil
        | false => rfl
      rw [this]
      simp
    · rw [if_neg hptr]

/-- Witness for C8 (amended): a `*`-readable/writable `*int` field holding
a non-nil pointer to `5` survives the round trip. -/
theorem C8_roundtrip_witness :
    ((mergeStructVal
      (FilterStructTo ⟨⟨[⟨"P", .tptr .tint, "*", "*"⟩]⟩,
          [.vptrSome .tint (.vint 5)]⟩
        ⟨⟨[⟨"P", .tptr .tint, "*", "*"⟩]⟩, [.vptrNil .tint]⟩ ["r"] true).1
      ⟨⟨[⟨"P", .tptr .tint, "*", "*"⟩]⟩, [.vptrSome .tint (.vint 5)]⟩
      ["r"]).1).vals.get? 0 = some (.vptrSome .tint (.vint 5)) :=
  C8_roundtrip
    ⟨⟨[⟨"P", .tptr .tint, "*", "*"⟩]⟩, [.vptrSome .tint (.vint 5)]⟩
    ⟨⟨[⟨"P", .tptr .tint, "*", "*"⟩]⟩, [.vptrNil .tint]⟩ ["r"] rfl
    (by decide) (by decide) (by decide) (by decide) 0
    ⟨"P", .tptr .tint, "*", "*"⟩ (.vptrSome .tint (.vint 5)) (by decide)
    (by decide) (by decide) (by decide) (by decide)

end Struccy
